import Mathlib

/-!
# Verification of the anywhere_backend instance lifecycle orchestrator

Shallow embedding of the Go sources of `yuhai94/anywhere_backend`:
the persisted instance records (`internal/models`), the repository layer
(`internal/repository`), the provisioning service (`internal/service`,
`V2RayService`), the cloud reconciler (`internal/scheduler`,
`AWSInstanceSyncTask`), the task scheduler (`internal/scheduler`,
`Scheduler`), the EC2 gateway waiters (`internal/aws/ec2.go`) and the
HTTP handler (`internal/api/handlers/v2ray.go`).

The persisted table is modelled as a list of records; SQL statements are
modelled by the list transformation they perform.  Repository and cloud
calls that the claims treat as infallible are embedded as total
functions; cloud-call outcomes are supplied by an explicit environment,
and polling loops take the sequence of observed cloud states plus a
fuel bound mirroring the configured timeout.
-/

/-- Status constants from `internal/models` (Go `StatusPending` etc.). -/
def StatusPending : String := "pending"

def StatusCreating : String := "creating"

def StatusRunning : String := "running"

def StatusDeleting : String := "deleting"

def StatusDeleted : String := "deleted"

def StatusError : String := "error"

/-- The persisted record `models.V2RayInstance` (columns of the
`v2ray_instances` table that the claims mention). -/
structure V2RayInstance where
  id : Nat
  uuid : String
  ec2Id : String
  ec2Region : String
  ec2PublicIP : String
  status : String
  isDeleted : Bool
deriving Repr, DecidableEq

/-- The persisted table, in insertion order. -/
abbrev DB := List V2RayInstance

/-- The active-status test used by `CheckRegionHasActiveInstance` and the
defensive re-scan: status in (pending, creating, running). -/
def isActiveStatus (s : String) : Bool :=
  s == StatusPending || s == StatusCreating || s == StatusRunning

/-- A record counts as active for region `region`: same region, not
soft-deleted, active status. -/
def isActiveInRegion (region : String) (i : V2RayInstance) : Bool :=
  i.ec2Region == region && !i.isDeleted && isActiveStatus i.status

/-- `Repository.List`: all records with `is_deleted = false`. -/
def Repository.list (db : DB) : List V2RayInstance :=
  db.filter (fun i => !i.isDeleted)

/-- `Repository.GetByUUID`: the record with the given uuid among
non-deleted records (`WHERE uuid = ? AND is_deleted = false`). -/
def Repository.getByUUID (db : DB) (uuid : String) : Option V2RayInstance :=
  (Repository.list db).find? (fun i => i.uuid == uuid)

/-- `Repository.Create`: `INSERT INTO v2ray_instances ...`. -/
def Repository.create (db : DB) (inst : V2RayInstance) : DB :=
  db ++ [inst]

/-- `Repository.Update`: `UPDATE ... SET ec2_id, ec2_region,
ec2_public_ip, status, is_deleted WHERE uuid = ?`. -/
def Repository.update (db : DB) (inst : V2RayInstance) : DB :=
  db.map (fun i =>
    if i.uuid == inst.uuid then
      { i with ec2Id := inst.ec2Id, ec2Region := inst.ec2Region,
               ec2PublicIP := inst.ec2PublicIP, status := inst.status,
               isDeleted := inst.isDeleted }
    else i)

/-- `Repository.UpdateStatus`: `UPDATE ... SET status = ? WHERE uuid = ?`. -/
def Repository.updateStatus (db : DB) (uuid status : String) : DB :=
  db.map (fun i => if i.uuid == uuid then { i with status := status } else i)

/-- `Repository.UpdateStatusAndIP`: `UPDATE ... SET status = ?,
ec2_public_ip = ? WHERE uuid = ?`. -/
def Repository.updateStatusAndIP (db : DB) (uuid status publicIP : String) : DB :=
  db.map (fun i =>
    if i.uuid == uuid then { i with status := status, ec2PublicIP := publicIP }
    else i)

/-- `Repository.Delete` (soft delete): `UPDATE ... SET status = deleted,
is_deleted = true WHERE uuid = ?`. -/
def Repository.delete (db : DB) (uuid : String) : DB :=
  db.map (fun i =>
    if i.uuid == uuid then { i with status := StatusDeleted, isDeleted := true }
    else i)

/-- `Repository.CheckRegionHasActiveInstance`: `SELECT COUNT(*) ...
WHERE ec2_region = ? AND is_deleted = false AND status IN
(pending, creating, running)`, returned as `count > 0`. -/
def Repository.checkRegionHasActiveInstance (db : DB) (region : String) : Bool :=
  db.any (isActiveInRegion region)

/-- `Repository.GetRegionActiveInstance`: same filter, `LIMIT 1`. -/
def Repository.getRegionActiveInstance (db : DB) (region : String) :
    Option V2RayInstance :=
  db.find? (isActiveInRegion region)

/-- The active-record count of the defensive re-scan in
`V2RayService.CreateInstance`: it iterates `repo.List` output and counts
records with the requested region, not deleted, active status. -/
def countActiveInRegion (insts : List V2RayInstance) (region : String) : Nat :=
  (insts.filter (isActiveInRegion region)).length

/-- The `pending` record inserted by `V2RayService.CreateInstance`
(uuid freshly generated, region from the request, status pending). -/
def newPendingRecord (db : DB) (region freshUUID : String) : V2RayInstance :=
  { id := db.length + 1, uuid := freshUUID, ec2Id := "", ec2Region := region,
    ec2PublicIP := "", status := StatusPending, isDeleted := false }

/-- `V2RayService.CreateInstance` under the table lock.  `mid` models
writes interleaved between the insert and the defensive re-scan (the
contingency the re-scan defends against); the plain sequential call
instantiates `mid` with the identity.  Returns the updated table and
either the uuid handed to the caller or the error. -/
def V2RayService.createInstanceCore (db : DB) (region freshUUID : String)
    (mid : DB → DB) : DB × Except String String :=
  if Repository.checkRegionHasActiveInstance db region then
    match Repository.getRegionActiveInstance db region with
    | some existing => (db, Except.ok existing.uuid)
    | none => (db, Except.error "failed to get existing active instance")
  else
    let db1 := Repository.create db (newPendingRecord db region freshUUID)
    let db2 := mid db1
    if countActiveInRegion (Repository.list db2) region > 1 then
      (Repository.delete db2 freshUUID,
       Except.error ("region " ++ region ++ " already has an active instance"))
    else
      (db2, Except.ok freshUUID)

/-- `V2RayService.CreateInstance` as actually called: no interleaved
write between the insert and the re-scan. -/
def V2RayService.createInstance (db : DB) (region freshUUID : String) :
    DB × Except String String :=
  V2RayService.createInstanceCore db region freshUUID id

/-- With no active record in the region, no record of `Repository.list db`
passes the active-in-region filter. -/
lemma active_filter_nil (db : DB) (R : String)
    (h : Repository.checkRegionHasActiveInstance db R = false) :
    (Repository.list db).filter (isActiveInRegion R) = [] := by
  rw [List.filter_eq_nil_iff]
  intro a ha
  have ham : a ∈ db := by
    have h2 : a ∈ db.filter (fun i => !i.isDeleted) := ha
    exact (List.mem_filter.mp h2).1
  have hfalse := List.any_eq_false.mp h a ham
  simp [hfalse]

/-- The freshly inserted pending record is active for its region. -/
lemma newPending_active (db : DB) (R u : String) :
    isActiveInRegion R (newPendingRecord db R u) = true := by
  simp [isActiveInRegion, newPendingRecord, isActiveStatus, StatusPending]

/-- The fresh pending record is not soft-deleted. -/
lemma newPending_not_deleted (db : DB) (R u : String) :
    (newPendingRecord db R u).isDeleted = false := rfl

/-- With no active record in the region, `CreateInstance` inserts the
fresh `pending` record, the defensive re-scan counts exactly one active
record and does not fire, and the fresh uuid is returned. -/
lemma createInstance_no_active (db : DB) (R u : String)
    (h : Repository.checkRegionHasActiveInstance db R = false) :
    V2RayService.createInstance db R u =
      (Repository.create db (newPendingRecord db R u), Except.ok u) := by
  have hcount : countActiveInRegion
      (Repository.list (Repository.create db (newPendingRecord db R u))) R = 1 := by
    unfold countActiveInRegion Repository.list Repository.create
    rw [List.filter_append, List.filter_append]
    have h1 : (db.filter fun i => !i.isDeleted).filter (isActiveInRegion R) = [] :=
      active_filter_nil db R h
    simp only [Repository.list] at h1
    rw [h1]
    simp [newPending_active, newPending_not_deleted]
  unfold V2RayService.createInstance V2RayService.createInstanceCore
  rw [h]
  simp only [Bool.false_eq_true, if_false, id]
  rw [hcount]
  simp

/-- With an active record present, `CreateInstance` returns its uuid and
leaves the table untouched. -/
lemma createInstance_active (db : DB) (R u : String) (ex : V2RayInstance)
    (h : Repository.getRegionActiveInstance db R = some ex) :
    V2RayService.createInstance db R u = (db, Except.ok ex.uuid) := by
  have hact : Repository.checkRegionHasActiveInstance db R = true := by
    unfold Repository.checkRegionHasActiveInstance
    exact List.any_eq_true.mpr
      ⟨ex, List.mem_of_find?_eq_some h, List.find?_some h⟩
  unfold V2RayService.createInstance V2RayService.createInstanceCore
  rw [hact]
  simp only [if_true]
  rw [h]

/-- C1.  For every region, if a non-deleted record with status in
(pending, creating, running) exists at the moment `CreateInstance` runs,
the call returns that record's uuid and inserts no record (the table is
unchanged); and starting instead from a state with no active record, two
sequential `CreateInstance` calls both return the uuid generated by the
first call. -/
theorem requestCreate_idempotent (db : DB) (R u : String) (ex : V2RayInstance)
    (h : Repository.getRegionActiveInstance db R = some ex) :
    V2RayService.createInstance db R u = (db, Except.ok ex.uuid)
    ∧ ex ∈ db ∧ ex.isDeleted = false ∧ isActiveStatus ex.status = true
    ∧ ex.ec2Region = R
    ∧ (∀ db0 u1 u2, Repository.checkRegionHasActiveInstance db0 R = false →
        (V2RayService.createInstance db0 R u1).2 = Except.ok u1 ∧
        V2RayService.createInstance (V2RayService.createInstance db0 R u1).1 R u2
          = ((V2RayService.createInstance db0 R u1).1, Except.ok u1)) := by
  have hp := List.find?_some h
  have hmem := List.mem_of_find?_eq_some h
  have hprops : (ex.ec2Region = R ∧ ex.isDeleted = false) ∧
      isActiveStatus ex.status = true := by
    simpa [isActiveInRegion, Bool.and_eq_true, Bool.not_eq_true'] using hp
  refine ⟨createInstance_active db R u ex h, hmem, hprops.1.2, hprops.2,
    hprops.1.1, ?_⟩
  intro db0 u1 u2 h0
  have hfst := createInstance_no_active db0 R u1
  rw [hfst h0]
  have hfind : Repository.getRegionActiveInstance
      (Repository.create db0 (newPendingRecord db0 R u1)) R =
        some (newPendingRecord db0 R u1) := by
    unfold Repository.getRegionActiveInstance Repository.create
    rw [List.find?_append]
    have hnone : db0.find? (isActiveInRegion R) = none := by
      rw [List.find?_eq_none]
      intro x hx
      have := List.any_eq_false.mp h0 x hx
      simp [this]
    rw [hnone]
    simp [newPending_active]
  exact ⟨rfl, createInstance_active _ R u2 _ hfind⟩

/-- Witness for C1 at a concrete table: a running record exists for
region r1, so a create request returns its uuid unchanged, and from the
empty table two sequential creates both return the first fresh uuid. -/
theorem requestCreate_idempotent_witness :
    V2RayService.createInstance
        [{ id := 1, uuid := "u-old", ec2Id := "i-1", ec2Region := "r1",
           ec2PublicIP := "1.2.3.4", status := "running", isDeleted := false }]
        "r1" "u-new"
      = ([{ id := 1, uuid := "u-old", ec2Id := "i-1", ec2Region := "r1",
            ec2PublicIP := "1.2.3.4", status := "running", isDeleted := false }],
         Except.ok "u-old")
    ∧ (V2RayService.createInstance [] "r1" "u1").2 = Except.ok "u1"
    ∧ V2RayService.createInstance (V2RayService.createInstance [] "r1" "u1").1
        "r1" "u2"
      = ((V2RayService.createInstance [] "r1" "u1").1, Except.ok "u1") := by
  have h := requestCreate_idempotent
    [{ id := 1, uuid := "u-old", ec2Id := "i-1", ec2Region := "r1",
       ec2PublicIP := "1.2.3.4", status := "running", isDeleted := false }]
    "r1" "u-new"
    { id := 1, uuid := "u-old", ec2Id := "i-1", ec2Region := "r1",
      ec2PublicIP := "1.2.3.4", status := "running", isDeleted := false }
    (by rfl)
  have hseq := h.2.2.2.2.2 [] "u1" "u2" (by rfl)
  exact ⟨h.1, hseq.1, hseq.2⟩

/-- `aws.InstanceInfo` as produced by `EC2Client.DescribeInstances`:
instance id, region, public IP, the value of the `UUID` ownership tag
(empty when untagged), and the model status derived by
`ConvertInstanceStateToModelStatus`. -/
structure InstanceInfo where
  instanceID : String
  region : String
  publicIP : String
  uuid : String
  status : String
deriving Repr, DecidableEq

/-- Go map assignment `dbInstanceMap[inst.EC2ID] = inst`: a later record
with the same key overwrites the earlier one. -/
def mapInsert (m : List V2RayInstance) (inst : V2RayInstance) :
    List V2RayInstance :=
  m.filter (fun i => !(i.ec2Id == inst.ec2Id)) ++ [inst]

/-- Go map read `dbInstanceMap[ec2Id]`. -/
def mapLookup (m : List V2RayInstance) (ec2Id : String) : Option V2RayInstance :=
  m.find? (fun i => i.ec2Id == ec2Id)

/-- Go `delete(dbInstanceMap, ec2Id)`. -/
def mapRemove (m : List V2RayInstance) (ec2Id : String) : List V2RayInstance :=
  m.filter (fun i => !(i.ec2Id == ec2Id))

/-- The `dbInstanceMap` built by `syncInstances` from the repository's
non-deleted records, keyed by `EC2ID`. -/
def buildDbInstanceMap (insts : List V2RayInstance) : List V2RayInstance :=
  insts.foldl mapInsert []

/-- `AWSInstanceSyncTask.updateInstance`: overwrite the matched record's
public IP and status with the observed values and persist via
`Repository.Update` (which writes all mutable columns, keyed by uuid). -/
def AWSInstanceSyncTask.updateInstance (db : DB) (dbInstance : V2RayInstance)
    (info : InstanceInfo) : DB :=
  Repository.update db
    { dbInstance with ec2PublicIP := info.publicIP, status := info.status }

/-- `AWSInstanceSyncTask.createInstance`: skip instances without a UUID
tag; otherwise insert a record with `Status: models.StatusRunning`. -/
def AWSInstanceSyncTask.createInstance (db : DB) (info : InstanceInfo) : DB :=
  if info.uuid == "" then db
  else
    Repository.create db
      { id := db.length + 1, uuid := info.uuid, ec2Id := info.instanceID,
        ec2Region := info.region, ec2PublicIP := info.publicIP,
        status := StatusRunning, isDeleted := false }

/-- One live instance inside the `syncInstances` loop: if its cloud id is
in `dbInstanceMap`, update the record and drop it from the map;
otherwise create a new record. -/
def AWSInstanceSyncTask.processInstance (st : DB × List V2RayInstance)
    (info : InstanceInfo) : DB × List V2RayInstance :=
  match mapLookup st.2 info.instanceID with
  | some dbInstance =>
      (AWSInstanceSyncTask.updateInstance st.1 dbInstance info,
       mapRemove st.2 info.instanceID)
  | none => (AWSInstanceSyncTask.createInstance st.1 info, st.2)

/-- One region of the `syncInstances` loop: a failed
`DescribeInstances` call is logged and the region skipped (`continue`). -/
def AWSInstanceSyncTask.processRegion
    (fetch : String → Option (List InstanceInfo))
    (st : DB × List V2RayInstance) (region : String) :
    DB × List V2RayInstance :=
  match fetch region with
  | none => st
  | some infos => infos.foldl AWSInstanceSyncTask.processInstance st

/-- `AWSInstanceSyncTask.syncInstances`: build the map of non-deleted
records, walk every configured region, then soft-delete every record
left in the map. -/
def AWSInstanceSyncTask.syncInstances (db : DB) (regions : List String)
    (fetch : String → Option (List InstanceInfo)) : DB :=
  let m0 := buildDbInstanceMap (Repository.list db)
  let st := regions.foldl (AWSInstanceSyncTask.processRegion fetch) (db, m0)
  st.2.foldl (fun d i => Repository.delete d i.uuid) st.1

/-- Filtering with a predicate that keeps every `p`-element leaves
`find? p` unchanged. -/
lemma find?_filter_of_imp {α : Type} (l : List α) (p q : α → Bool)
    (h : ∀ a, p a = true → q a = true) :
    (l.filter q).find? p = l.find? p := by
  induction l with
  | nil => rfl
  | cons a t ih =>
    by_cases hp : p a = true
    · have hq := h a hp
      simp [List.filter_cons, hq, List.find?_cons_of_pos _ hp]
    · have hp2 : ¬ p a := by simpa using hp
      by_cases hq : q a = true
      · simp [List.filter_cons, hq, List.find?_cons_of_neg _ hp2, ih]
      · simp [List.filter_cons, hq, List.find?_cons_of_neg _ hp2, ih]

/-- Lookup after a Go map insert: the inserted record shadows the old
entry for its key and leaves other keys alone. -/
lemma mapLookup_mapInsert (m : List V2RayInstance) (i : V2RayInstance)
    (k : String) :
    mapLookup (mapInsert m i) k =
      if i.ec2Id = k then some i else mapLookup m k := by
  unfold mapLookup mapInsert
  rw [List.find?_append]
  by_cases hk : i.ec2Id = k
  · have hnone : (m.filter (fun x => !(x.ec2Id == i.ec2Id))).find?
        (fun x => x.ec2Id == k) = none := by
      rw [List.find?_eq_none]
      intro x hx
      have hne := (List.mem_filter.mp hx).2
      simp only [Bool.not_eq_eq_eq_not, Bool.not_true, beq_eq_false_iff_ne] at hne
      simp [← hk, hne]
    rw [hnone]
    simp [hk]
  · have heq := find?_filter_of_imp m (fun x => x.ec2Id == k)
      (fun x => !(x.ec2Id == i.ec2Id))
      (by
        intro x hx
        have hxk : x.ec2Id = k := by simpa using hx
        have hxi : ¬ x.ec2Id = i.ec2Id := by
          rw [hxk]
          exact fun h2 => hk h2.symm
        simp [hxi])
    rw [heq]
    have hni : ([i].find? (fun x => x.ec2Id == k)) = none := by
      simp [hk]
    rw [hni]
    simp [hk]

/-- Folding map inserts whose keys all differ from `k` leaves the lookup
at `k` unchanged. -/
lemma mapLookup_foldl_absent (l : List V2RayInstance)
    (m : List V2RayInstance) (k : String)
    (h : ∀ x ∈ l, ¬ x.ec2Id = k) :
    mapLookup (l.foldl mapInsert m) k = mapLookup m k := by
  induction l generalizing m with
  | nil => rfl
  | cons a t ih =>
    simp only [List.foldl_cons]
    rw [ih _ (fun x hx => h x (List.mem_cons_of_mem a hx))]
    rw [mapLookup_mapInsert]
    simp [h a (List.mem_cons_self a t)]

/-- Building the `dbInstanceMap` from a list containing `rec`, where no
other element shares its `EC2ID`, yields `rec` at its key. -/
lemma buildMap_lookup (l : List V2RayInstance) (m : List V2RayInstance)
    (rec : V2RayInstance) (hmem : rec ∈ l)
    (huniq : ∀ x ∈ l, x.ec2Id = rec.ec2Id → x = rec) :
    mapLookup (l.foldl mapInsert m) rec.ec2Id = some rec := by
  induction l generalizing m with
  | nil => cases hmem
  | cons a t ih =>
    simp only [List.foldl_cons]
    by_cases hrec : rec ∈ t
    · exact ih _ hrec (fun x hx hid => huniq x (List.mem_cons_of_mem a hx) hid)
    · have ha : a = rec := by
        rcases List.mem_cons.mp hmem with he | he
        · exact he.symm
        · exact absurd he hrec
      subst ha
      have habsent : ∀ x ∈ t, ¬ x.ec2Id = a.ec2Id := by
        intro x hx hid
        exact hrec ((huniq x (List.mem_cons_of_mem a hx) hid) ▸ hx)
      rw [mapLookup_foldl_absent t _ _ habsent, mapLookup_mapInsert]
      simp

/-- Processing one live instance whose cloud id differs from `k`
preserves the map entry at `k`. -/
lemma processInstance_preserves_lookup (st : DB × List V2RayInstance)
    (info : InstanceInfo) (k : String) (e : V2RayInstance)
    (h : mapLookup st.2 k = some e) (hne : ¬ info.instanceID = k) :
    mapLookup (AWSInstanceSyncTask.processInstance st info).2 k = some e := by
  unfold AWSInstanceSyncTask.processInstance
  cases hl : mapLookup st.2 info.instanceID with
  | none => simpa using h
  | some dbi =>
    simp only []
    show mapLookup (mapRemove st.2 info.instanceID) k = some e
    unfold mapRemove mapLookup
    rw [find?_filter_of_imp]
    · exact h
    · intro x hx
      have hxk : x.ec2Id = k := by simpa using hx
      simp [hxk]
      intro hik
      exact hne (hik ▸ rfl)

/-- Processing a list of live instances none of which carries cloud id
`k` preserves the map entry at `k`. -/
lemma processList_preserves_lookup (infos : List InstanceInfo)
    (st : DB × List V2RayInstance) (k : String) (e : V2RayInstance)
    (h : mapLookup st.2 k = some e)
    (hall : ∀ info ∈ infos, ¬ info.instanceID = k) :
    mapLookup ((infos.foldl AWSInstanceSyncTask.processInstance st).2) k
      = some e := by
  induction infos generalizing st with
  | nil => exact h
  | cons a t ih =>
    simp only [List.foldl_cons]
    exact ih _
      (processInstance_preserves_lookup st a k e h
        (hall a (List.mem_cons_self a t)))
      (fun i hi => hall i (List.mem_cons_of_mem a hi))

/-- Walking all regions preserves the map entry at `k` as long as no
successfully fetched live instance carries cloud id `k`. -/
lemma processRegions_preserves_lookup (regions : List String)
    (fetch : String → Option (List InstanceInfo))
    (st : DB × List V2RayInstance) (k : String) (e : V2RayInstance)
    (h : mapLookup st.2 k = some e)
    (hall : ∀ R infos, fetch R = some infos →
      ∀ info ∈ infos, ¬ info.instanceID = k) :
    mapLookup
      ((regions.foldl (AWSInstanceSyncTask.processRegion fetch) st).2) k
      = some e := by
  induction regions generalizing st with
  | nil => exact h
  | cons R rest ih =>
    simp only [List.foldl_cons]
    have hstep : mapLookup ((AWSInstanceSyncTask.processRegion fetch st R).2) k
        = some e := by
      unfold AWSInstanceSyncTask.processRegion
      cases hf : fetch R with
      | none => simpa using h
      | some infos =>
        simpa using processList_preserves_lookup infos st k e h (hall R infos hf)
    exact ih _ hstep

/-- `Repository.Delete` marks every record carrying the deleted uuid. -/
lemma delete_marks_uuid (db : DB) (u : String) :
    ∀ r ∈ Repository.delete db u, r.uuid = u → r.isDeleted = true := by
  intro r hr hu
  unfold Repository.delete at hr
  obtain ⟨a, ha, rfl⟩ := List.mem_map.mp hr
  by_cases h : a.uuid = u
  · simp [h]
  · simp [h] at hu

/-- Soft deletion never clears the deleted mark of records carrying a
different uuid. -/
lemma delete_preserves_marked (db : DB) (u v : String)
    (h : ∀ r ∈ db, r.uuid = u → r.isDeleted = true) :
    ∀ r ∈ Repository.delete db v, r.uuid = u → r.isDeleted = true := by
  intro r hr hu
  unfold Repository.delete at hr
  obtain ⟨a, ha, rfl⟩ := List.mem_map.mp hr
  by_cases hv : a.uuid = v
  · simp [hv]
  · simp [hv] at hu ⊢
    exact h a ha hu

/-- The soft-delete fold at the end of a sync cycle preserves the
"already marked" property. -/
lemma foldl_delete_preserves (m : List V2RayInstance) (db : DB) (u : String)
    (h : ∀ r ∈ db, r.uuid = u → r.isDeleted = true) :
    ∀ r ∈ m.foldl (fun d i => Repository.delete d i.uuid) db,
      r.uuid = u → r.isDeleted = true := by
  induction m generalizing db with
  | nil => exact h
  | cons a t ih =>
    simp only [List.foldl_cons]
    exact ih _ (delete_preserves_marked db u a.uuid h)

/-- Every record whose uuid belongs to an entry of the leftover map is
soft-deleted by the final fold of a sync cycle. -/
lemma foldl_delete_of_mem (m : List V2RayInstance) (db : DB)
    (e : V2RayInstance) (hmem : e ∈ m) :
    ∀ r ∈ m.foldl (fun d i => Repository.delete d i.uuid) db,
      r.uuid = e.uuid → r.isDeleted = true := by
  induction m generalizing db with
  | nil => cases hmem
  | cons a t ih =>
    simp only [List.foldl_cons]
    rcases List.mem_cons.mp hmem with he | he
    · subst he
      exact foldl_delete_preserves t _ e.uuid (delete_marks_uuid db e.uuid)
    · exact ih _ he

/-- C2 counterexample.  One region whose live-list fetch fails: the
claim says every record of that region is left unchanged by the cycle,
but the sync soft-deletes the region's only (running, non-deleted)
record, because a failed fetch leaves the region's records in the
unmatched working set. -/
theorem sync_fetch_failure_deletes_failed_region :
    AWSInstanceSyncTask.syncInstances
        [{ id := 1, uuid := "u1", ec2Id := "i-1", ec2Region := "r1",
           ec2PublicIP := "1.1.1.1", status := "running", isDeleted := false }]
        ["r1"] (fun _ => none)
      = [{ id := 1, uuid := "u1", ec2Id := "i-1", ec2Region := "r1",
           ec2PublicIP := "1.1.1.1", status := "deleted", isDeleted := true }] := by
  rfl

/-- C2 (amended).  A region whose fetch fails is skipped for matching
and creation, and the other regions are still processed; but the failed
region's persisted records stay in the unmatched working set, so any of
its non-deleted records whose cloud id is not reported by some
successfully fetched region is soft-deleted at the end of the cycle. -/
theorem sync_failed_region_records_deleted (db : DB) (regions : List String)
    (fetch : String → Option (List InstanceInfo)) (rec : V2RayInstance)
    (hmem : rec ∈ db) (hnd : rec.isDeleted = false)
    (huniq : ∀ x ∈ Repository.list db, x.ec2Id = rec.ec2Id → x = rec)
    (hnomatch : ∀ R infos, fetch R = some infos →
      ∀ info ∈ infos, ¬ info.instanceID = rec.ec2Id) :
    (∀ st R, fetch R = none →
      AWSInstanceSyncTask.processRegion fetch st R = st)
    ∧ ∀ r ∈ AWSInstanceSyncTask.syncInstances db regions fetch,
        r.uuid = rec.uuid → r.isDeleted = true := by
  constructor
  · intro st R h
    unfold AWSInstanceSyncTask.processRegion
    rw [h]
  · have hmem2 : rec ∈ Repository.list db :=
      List.mem_filter.mpr ⟨hmem, by simp [hnd]⟩
    have hm0 : mapLookup (buildDbInstanceMap (Repository.list db)) rec.ec2Id
        = some rec :=
      buildMap_lookup _ [] rec hmem2 huniq
    have hst : mapLookup
        ((regions.foldl (AWSInstanceSyncTask.processRegion fetch)
          (db, buildDbInstanceMap (Repository.list db))).2) rec.ec2Id
        = some rec :=
      processRegions_preserves_lookup regions fetch _ rec.ec2Id rec hm0 hnomatch
    have hrecmem : rec ∈
        (regions.foldl (AWSInstanceSyncTask.processRegion fetch)
          (db, buildDbInstanceMap (Repository.list db))).2 :=
      List.mem_of_find?_eq_some hst
    unfold AWSInstanceSyncTask.syncInstances
    exact foldl_delete_of_mem _ _ rec hrecmem

/-- Witness for the amended C2: region r1 fails, region r2 succeeds
(with an empty live list), and the lone record of r1 ends soft-deleted. -/
theorem sync_failed_region_records_deleted_witness :
    AWSInstanceSyncTask.syncInstances
        [{ id := 1, uuid := "u1", ec2Id := "i-1", ec2Region := "r1",
           ec2PublicIP := "1.1.1.1", status := "running", isDeleted := false }]
        ["r1", "r2"] (fun R => if R == "r2" then some [] else none)
      = [{ id := 1, uuid := "u1", ec2Id := "i-1", ec2Region := "r1",
           ec2PublicIP := "1.1.1.1", status := "deleted", isDeleted := true }]
    ∧ ({ id := 1, uuid := "u1", ec2Id := "i-1", ec2Region := "r1",
         ec2PublicIP := "1.1.1.1", status := "deleted", isDeleted := true }
        : V2RayInstance).isDeleted = true := by
  have hthm := sync_failed_region_records_deleted
    [{ id := 1, uuid := "u1", ec2Id := "i-1", ec2Region := "r1",
       ec2PublicIP := "1.1.1.1", status := "running", isDeleted := false }]
    ["r1", "r2"] (fun R => if R == "r2" then some [] else none)
    { id := 1, uuid := "u1", ec2Id := "i-1", ec2Region := "r1",
      ec2PublicIP := "1.1.1.1", status := "running", isDeleted := false }
    (List.mem_singleton_self _) rfl (by decide)
    (by
      intro R infos h info hinfo
      by_cases hR : (R == "r2") = true
      · simp [hR] at h
        subst h
        cases hinfo
      · simp [hR] at h)
  have hsync : AWSInstanceSyncTask.syncInstances
      [{ id := 1, uuid := "u1", ec2Id := "i-1", ec2Region := "r1",
         ec2PublicIP := "1.1.1.1", status := "running", isDeleted := false }]
      ["r1", "r2"] (fun R => if R == "r2" then some [] else none)
      = [{ id := 1, uuid := "u1", ec2Id := "i-1", ec2Region := "r1",
           ec2PublicIP := "1.1.1.1", status := "deleted", isDeleted := true }] := by
    rfl
  refine ⟨hsync, ?_⟩
  exact hthm.2 _ (hsync ▸ List.mem_singleton_self _) rfl

/-- C3 counterexample.  A live instance with no UUID tag whose cloud id
matches a persisted record: the claim says it is never matched, but the
sync matches it, overwrites the record's IP and status, and shields the
record from soft-deletion. -/
theorem sync_untagged_instance_is_matched :
    AWSInstanceSyncTask.syncInstances
        [{ id := 1, uuid := "u1", ec2Id := "i-1", ec2Region := "r1",
           ec2PublicIP := "1.1.1.1", status := "pending", isDeleted := false }]
        ["r1"]
        (fun _ => some [{ instanceID := "i-1", region := "r1",
                          publicIP := "9.9.9.9", uuid := "",
                          status := "running" }])
      = [{ id := 1, uuid := "u1", ec2Id := "i-1", ec2Region := "r1",
           ec2PublicIP := "9.9.9.9", status := "running", isDeleted := false }] := by
  rfl

/-- C3 (amended).  An untagged live instance never causes a record to be
created (the tag check guards only creation), but when its cloud id is
present in the working set it is matched like any other instance: the
record is updated and removed from the unmatched set. -/
theorem sync_untagged_skip_amended (db : DB) (m : List V2RayInstance)
    (info : InstanceInfo) (huntagged : info.uuid = "") :
    AWSInstanceSyncTask.createInstance db info = db
    ∧ (∀ dbi, mapLookup m info.instanceID = some dbi →
        AWSInstanceSyncTask.processInstance (db, m) info =
          (AWSInstanceSyncTask.updateInstance db dbi info,
           mapRemove m info.instanceID)) := by
  constructor
  · unfold AWSInstanceSyncTask.createInstance
    simp [huntagged]
  · intro dbi h
    unfold AWSInstanceSyncTask.processInstance
    simp only [h]

/-- Witness for the amended C3: the untagged instance creates nothing on
an empty table, and is matched and removed when its cloud id is in the
working set. -/
theorem sync_untagged_skip_amended_witness :
    AWSInstanceSyncTask.createInstance []
        { instanceID := "i-1", region := "r1", publicIP := "9.9.9.9",
          uuid := "", status := "running" } = []
    ∧ AWSInstanceSyncTask.processInstance
        ([{ id := 1, uuid := "u1", ec2Id := "i-1", ec2Region := "r1",
            ec2PublicIP := "1.1.1.1", status := "pending", isDeleted := false }],
         [{ id := 1, uuid := "u1", ec2Id := "i-1", ec2Region := "r1",
            ec2PublicIP := "1.1.1.1", status := "pending", isDeleted := false }])
        { instanceID := "i-1", region := "r1", publicIP := "9.9.9.9",
          uuid := "", status := "running" }
      = (AWSInstanceSyncTask.updateInstance
          [{ id := 1, uuid := "u1", ec2Id := "i-1", ec2Region := "r1",
             ec2PublicIP := "1.1.1.1", status := "pending", isDeleted := false }]
          { id := 1, uuid := "u1", ec2Id := "i-1", ec2Region := "r1",
            ec2PublicIP := "1.1.1.1", status := "pending", isDeleted := false }
          { instanceID := "i-1", region := "r1", publicIP := "9.9.9.9",
            uuid := "", status := "running" },
         mapRemove
          [{ id := 1, uuid := "u1", ec2Id := "i-1", ec2Region := "r1",
             ec2PublicIP := "1.1.1.1", status := "pending", isDeleted := false }]
          "i-1") := by
  have hthm := sync_untagged_skip_amended []
    [{ id := 1, uuid := "u1", ec2Id := "i-1", ec2Region := "r1",
       ec2PublicIP := "1.1.1.1", status := "pending", isDeleted := false }]
    { instanceID := "i-1", region := "r1", publicIP := "9.9.9.9",
      uuid := "", status := "running" } rfl
  have hthm2 := sync_untagged_skip_amended
    [{ id := 1, uuid := "u1", ec2Id := "i-1", ec2Region := "r1",
       ec2PublicIP := "1.1.1.1", status := "pending", isDeleted := false }]
    [{ id := 1, uuid := "u1", ec2Id := "i-1", ec2Region := "r1",
       ec2PublicIP := "1.1.1.1", status := "pending", isDeleted := false }]
    { instanceID := "i-1", region := "r1", publicIP := "9.9.9.9",
      uuid := "", status := "running" } rfl
  exact ⟨hthm.1, hthm2.2 _ rfl⟩

/-- C4 counterexample.  An ownership-tagged live instance with derived
status `creating` (cloud state pending) and no persisted record: the
claim says the created record carries the derived status, but the sync
creates it with the fixed status `running`. -/
theorem sync_created_record_fixed_status :
    AWSInstanceSyncTask.syncInstances [] ["r1"]
        (fun _ => some [{ instanceID := "i-9", region := "r1",
                          publicIP := "3.3.3.3", uuid := "u9",
                          status := "creating" }])
      = [{ id := 1, uuid := "u9", ec2Id := "i-9", ec2Region := "r1",
           ec2PublicIP := "3.3.3.3", status := "running", isDeleted := false }]
    ∧ StatusRunning ≠ StatusCreating := by
  exact ⟨rfl, by decide⟩

/-- C4 (amended).  When the reconciler discovers an ownership-tagged
live instance with no matching record, it creates the record with the
constant status `running`, whatever the observed (derived) status is. -/
theorem sync_create_always_running (db : DB) (info : InstanceInfo)
    (htagged : ¬ info.uuid = "") :
    AWSInstanceSyncTask.createInstance db info =
      Repository.create db
        { id := db.length + 1, uuid := info.uuid, ec2Id := info.instanceID,
          ec2Region := info.region, ec2PublicIP := info.publicIP,
          status := StatusRunning, isDeleted := false } := by
  unfold AWSInstanceSyncTask.createInstance
  simp [htagged]

/-- Witness for the amended C4 at a cloud-pending (derived `creating`)
instance. -/
theorem sync_create_always_running_witness :
    AWSInstanceSyncTask.createInstance []
        { instanceID := "i-9", region := "r1", publicIP := "3.3.3.3",
          uuid := "u9", status := "creating" }
      = Repository.create []
          { id := 1, uuid := "u9", ec2Id := "i-9", ec2Region := "r1",
            ec2PublicIP := "3.3.3.3", status := StatusRunning,
            isDeleted := false } := by
  exact sync_create_always_running []
    { instanceID := "i-9", region := "r1", publicIP := "3.3.3.3",
      uuid := "u9", status := "creating" } (by decide)

/-- C6 counterexample.  A non-deleted record in status `error` whose
cloud instance is alive and running: the claim says a reconciliation
pass never changes the status of an error record, but the sync updates
it to `running`. -/
theorem sync_resurrects_error_record :
    AWSInstanceSyncTask.syncInstances
        [{ id := 1, uuid := "u1", ec2Id := "i-1", ec2Region := "r1",
           ec2PublicIP := "1.1.1.1", status := "error", isDeleted := false }]
        ["r1"]
        (fun _ => some [{ instanceID := "i-1", region := "r1",
                          publicIP := "2.2.2.2", uuid := "u1",
                          status := "running" }])
      = [{ id := 1, uuid := "u1", ec2Id := "i-1", ec2Region := "r1",
           ec2PublicIP := "2.2.2.2", status := "running", isDeleted := false }] := by
  rfl

/-- Members of a fold of Go map inserts come from the seed map or the
inserted list. -/
lemma mem_foldl_mapInsert (l : List V2RayInstance) (m : List V2RayInstance)
    (x : V2RayInstance) (hx : x ∈ l.foldl mapInsert m) : x ∈ m ∨ x ∈ l := by
  induction l generalizing m with
  | nil => exact Or.inl hx
  | cons a t ih =>
    rcases ih _ hx with h1 | h1
    · unfold mapInsert at h1
      rcases List.mem_append.mp h1 with h2 | h2
      · exact Or.inl (List.mem_filter.mp h2).1
      · right
        simp at h2
        simp [h2]
    · exact Or.inr (List.mem_cons_of_mem a h1)

/-- C6 (amended).  The reconciler's update overwrites a matched record's
status and public IP with the cloud-derived values regardless of the
record's current status — in particular an `error` record matched by a
live instance is moved to the observed status; only soft-deleted records
escape, because the working set is built from non-deleted records. -/
theorem reconciler_overwrites_any_status (db : DB) (dbi : V2RayInstance)
    (info : InstanceInfo) (hmem : dbi ∈ db) :
    { dbi with ec2PublicIP := info.publicIP, status := info.status }
      ∈ AWSInstanceSyncTask.updateInstance db dbi info
    ∧ ∀ x ∈ buildDbInstanceMap (Repository.list db), x.isDeleted = false := by
  constructor
  · unfold AWSInstanceSyncTask.updateInstance Repository.update
    apply List.mem_map.mpr
    refine ⟨dbi, hmem, ?_⟩
    simp
  · intro x hx
    rcases mem_foldl_mapInsert _ _ x hx with h1 | h1
    · cases h1
    · have := (List.mem_filter.mp h1).2
      simpa using this

/-- Witness for the amended C6: the error record is rewritten to the
observed running status and IP. -/
theorem reconciler_overwrites_any_status_witness :
    ({ id := 1, uuid := "u1", ec2Id := "i-1", ec2Region := "r1",
       ec2PublicIP := "2.2.2.2", status := "running", isDeleted := false }
      : V2RayInstance)
      ∈ AWSInstanceSyncTask.updateInstance
          [{ id := 1, uuid := "u1", ec2Id := "i-1", ec2Region := "r1",
             ec2PublicIP := "1.1.1.1", status := "error", isDeleted := false }]
          { id := 1, uuid := "u1", ec2Id := "i-1", ec2Region := "r1",
            ec2PublicIP := "1.1.1.1", status := "error", isDeleted := false }
          { instanceID := "i-1", region := "r1", publicIP := "2.2.2.2",
            uuid := "u1", status := "running" } := by
  exact (reconciler_overwrites_any_status
    [{ id := 1, uuid := "u1", ec2Id := "i-1", ec2Region := "r1",
       ec2PublicIP := "1.1.1.1", status := "error", isDeleted := false }]
    { id := 1, uuid := "u1", ec2Id := "i-1", ec2Region := "r1",
      ec2PublicIP := "1.1.1.1", status := "error", isDeleted := false }
    { instanceID := "i-1", region := "r1", publicIP := "2.2.2.2",
      uuid := "u1", status := "running" }
    (List.mem_singleton_self _)).1

/-- `Repository.Delete` also writes `status = deleted` for every record
carrying the deleted uuid. -/
lemma delete_marks_status (db : DB) (u : String) :
    ∀ r ∈ Repository.delete db u, r.uuid = u → r.status = StatusDeleted := by
  intro r hr hu
  unfold Repository.delete at hr
  obtain ⟨a, ha, rfl⟩ := List.mem_map.mp hr
  by_cases h : a.uuid = u
  · simp [h]
  · simp [h] at hu

/-- `Repository.UpdateStatus` writes the given status to every record
carrying the uuid. -/
lemma updateStatus_marks (db : DB) (u s : String) :
    ∀ r ∈ Repository.updateStatus db u s, r.uuid = u → r.status = s := by
  intro r hr hu
  unfold Repository.updateStatus at hr
  obtain ⟨a, ha, rfl⟩ := List.mem_map.mp hr
  by_cases h : a.uuid = u
  · simp [h]
  · simp [h] at hu

/-- `Repository.UpdateStatusAndIP` writes the given status to every
record carrying the uuid. -/
lemma updateStatusAndIP_marks (db : DB) (u s ip : String) :
    ∀ r ∈ Repository.updateStatusAndIP db u s ip, r.uuid = u → r.status = s := by
  intro r hr hu
  unfold Repository.updateStatusAndIP at hr
  obtain ⟨a, ha, rfl⟩ := List.mem_map.mp hr
  by_cases h : a.uuid = u
  · simp [h]
  · simp [h] at hu

/-- C7.  If the post-insert defensive re-scan of `CreateInstance` sees
more than one active record for the requested region (here: because of
writes `mid` interleaved between the insert and the re-scan), the call
soft-deletes the just-created uuid and returns an error, not a uuid. -/
theorem rescan_compensates_duplicate (db : DB) (R u : String) (mid : DB → DB)
    (hno : Repository.checkRegionHasActiveInstance db R = false)
    (hdup : countActiveInRegion
      (Repository.list (mid (Repository.create db (newPendingRecord db R u))))
      R > 1) :
    V2RayService.createInstanceCore db R u mid
      = (Repository.delete
           (mid (Repository.create db (newPendingRecord db R u))) u,
         Except.error ("region " ++ R ++ " already has an active instance"))
    ∧ ∀ r ∈ (V2RayService.createInstanceCore db R u mid).1,
        r.uuid = u → r.isDeleted = true ∧ r.status = StatusDeleted := by
  have heq : V2RayService.createInstanceCore db R u mid
      = (Repository.delete
           (mid (Repository.create db (newPendingRecord db R u))) u,
         Except.error ("region " ++ R ++ " already has an active instance")) := by
    unfold V2RayService.createInstanceCore
    rw [hno]
    simp only [Bool.false_eq_true, if_false]
    simp [hdup]
  refine ⟨heq, ?_⟩
  rw [heq]
  intro r hr hu
  exact ⟨delete_marks_uuid _ u r hr hu, delete_marks_status _ u r hr hu⟩

/-- Witness for C7: an intruding pending record appears between the
insert and the re-scan; the fresh record ends soft-deleted and the call
errors. -/
theorem rescan_compensates_duplicate_witness :
    V2RayService.createInstanceCore [] "r1" "u-new"
        (fun d => d ++ [{ id := 99, uuid := "u-intruder", ec2Id := "",
                          ec2Region := "r1", ec2PublicIP := "",
                          status := "pending", isDeleted := false }])
      = (Repository.delete
           ((fun d => d ++ [{ id := 99, uuid := "u-intruder", ec2Id := "",
                              ec2Region := "r1", ec2PublicIP := "",
                              status := "pending", isDeleted := false }])
             (Repository.create [] (newPendingRecord [] "r1" "u-new")))
           "u-new",
         Except.error "region r1 already has an active instance") := by
  exact (rescan_compensates_duplicate [] "r1" "u-new"
    (fun d => d ++ [{ id := 99, uuid := "u-intruder", ec2Id := "",
                      ec2Region := "r1", ec2PublicIP := "",
                      status := "pending", isDeleted := false }])
    (by decide) (by decide)).1

/-- EC2 instance states observed by the polling loops of
`internal/aws/ec2.go`. -/
inductive InstState where
  | pending
  | running
  | shuttingDown
  | terminated
  | stopping
  | stopped
deriving Repr, DecidableEq

/-- `EC2Client.WaitForInstanceRunning`: poll the described state until
the instance reports running (ok), reports terminated or shutting-down
(error), or the timeout elapses (error).  `obs k` is what poll `k`
observes; `none` models a failed describe call or an empty response,
which the loop logs and retries.  `fuel` is the number of polls the
configured timeout allows. -/
def waitForInstanceRunning (obs : Nat → Option InstState) :
    Nat → Nat → Except String Unit
  | _, 0 => Except.error "timeout waiting for instance to be running"
  | k, fuel + 1 =>
    match obs k with
    | some InstState.running => Except.ok ()
    | some InstState.terminated => Except.error "instance is terminated"
    | some InstState.shuttingDown => Except.error "instance is shutting-down"
    | _ => waitForInstanceRunning obs (k + 1) fuel

/-- A run of `WaitForInstanceRunning` that succeeds must have observed
the running state at some poll. -/
lemma waitRunning_ok_observed (obs : Nat → Option InstState) (k fuel : Nat)
    (h : waitForInstanceRunning obs k fuel = Except.ok ()) :
    ∃ j, obs j = some InstState.running := by
  induction fuel generalizing k with
  | zero => cases h
  | succ n ih =>
    unfold waitForInstanceRunning at h
    cases ho : obs k with
    | none =>
      rw [ho] at h
      exact ih (k + 1) h
    | some st =>
      cases st <;> rw [ho] at h
      · exact ih (k + 1) h
      · exact ⟨k, ho⟩
      · cases h
      · cases h
      · exact ih (k + 1) h
      · exact ih (k + 1) h

/-- The steps executed by the async creation workflow
`V2RayService.createInstanceAsync`, in order. -/
inductive CreateStep where
  | updateStatusCreating
  | ec2CreateInstance
  | getByUUID
  | updateEC2Id
  | waitRunning
  | getPublicIP
  | localV2RayAdd
  | updateStatusRunning
  | updateStatusError
deriving Repr, DecidableEq

/-- Outcomes of the cloud calls made by one run of the async creation
workflow: the result of `EC2Client.CreateInstance`, the state sequence
observed by `WaitForInstanceRunning` with its poll budget, the result of
`GetInstancePublicIP`, and whether a local V2Ray manager is configured. -/
structure CreateEnv where
  createResult : Except String String
  obs : Nat → Option InstState
  fuel : Nat
  ipResult : Except String String
  hasLocalManager : Bool

/-- `V2RayService.createInstanceAsync`: set `creating`; create the EC2
instance (single attempt; failure ends in `error`); persist the cloud
id; wait until running (failure or timeout ends in `error`); fetch the
public IP (failure ends in `error`); best-effort local config update;
finally set `running` with the IP.  Returns the table and the trace of
executed steps. -/
def V2RayService.createInstanceAsync (env : CreateEnv) (db : DB)
    (instanceUUID : String) : DB × List CreateStep :=
  match env.createResult with
  | Except.error _ =>
      (Repository.updateStatus
         (Repository.updateStatus db instanceUUID StatusCreating)
         instanceUUID StatusError,
       [CreateStep.updateStatusCreating, CreateStep.ec2CreateInstance,
        CreateStep.updateStatusError])
  | Except.ok ec2Id =>
    match Repository.getByUUID
        (Repository.updateStatus db instanceUUID StatusCreating)
        instanceUUID with
    | none =>
        (Repository.updateStatus
           (Repository.updateStatus db instanceUUID StatusCreating)
           instanceUUID StatusError,
         [CreateStep.updateStatusCreating, CreateStep.ec2CreateInstance,
          CreateStep.getByUUID, CreateStep.updateStatusError])
    | some inst =>
      match waitForInstanceRunning env.obs 0 env.fuel with
      | Except.error _ =>
          (Repository.updateStatus
             (Repository.update
               (Repository.updateStatus db instanceUUID StatusCreating)
               { inst with ec2Id := ec2Id })
             instanceUUID StatusError,
           [CreateStep.updateStatusCreating, CreateStep.ec2CreateInstance,
            CreateStep.getByUUID, CreateStep.updateEC2Id,
            CreateStep.waitRunning, CreateStep.updateStatusError])
      | Except.ok _ =>
        match env.ipResult with
        | Except.error _ =>
            (Repository.updateStatus
               (Repository.update
                 (Repository.updateStatus db instanceUUID StatusCreating)
                 { inst with ec2Id := ec2Id })
               instanceUUID StatusError,
             [CreateStep.updateStatusCreating, CreateStep.ec2CreateInstance,
              CreateStep.getByUUID, CreateStep.updateEC2Id,
              CreateStep.waitRunning, CreateStep.getPublicIP,
              CreateStep.updateStatusError])
        | Except.ok publicIP =>
            (Repository.updateStatusAndIP
               (Repository.update
                 (Repository.updateStatus db instanceUUID StatusCreating)
                 { inst with ec2Id := ec2Id })
               instanceUUID StatusRunning publicIP,
             if env.hasLocalManager then
               [CreateStep.updateStatusCreating, CreateStep.ec2CreateInstance,
                CreateStep.getByUUID, CreateStep.updateEC2Id,
                CreateStep.waitRunning, CreateStep.getPublicIP,
                CreateStep.localV2RayAdd, CreateStep.updateStatusRunning]
             else
               [CreateStep.updateStatusCreating, CreateStep.ec2CreateInstance,
                CreateStep.getByUUID, CreateStep.updateEC2Id,
                CreateStep.waitRunning, CreateStep.getPublicIP,
                CreateStep.updateStatusRunning])

/-- A record-wise map that preserves uuids preserves the presence of a
uuid in the table. -/
lemma exists_uuid_map (db : DB) (u : String)
    (f : V2RayInstance → V2RayInstance) (hf : ∀ a, (f a).uuid = a.uuid)
    (h : ∃ r ∈ db, r.uuid = u) : ∃ r ∈ db.map f, r.uuid = u := by
  obtain ⟨r, hr, hu⟩ := h
  exact ⟨f r, List.mem_map_of_mem f hr, (hf r).trans hu⟩

/-- `UpdateStatus` keeps every uuid present. -/
lemma exists_uuid_updateStatus (db : DB) (u v s : String)
    (h : ∃ r ∈ db, r.uuid = u) :
    ∃ r ∈ Repository.updateStatus db v s, r.uuid = u := by
  unfold Repository.updateStatus
  refine exists_uuid_map db u _ ?_ h
  intro a
  by_cases hv : (a.uuid == v) = true <;> simp [hv]

/-- `UpdateStatusAndIP` keeps every uuid present. -/
lemma exists_uuid_updateStatusAndIP (db : DB) (u v s ip : String)
    (h : ∃ r ∈ db, r.uuid = u) :
    ∃ r ∈ Repository.updateStatusAndIP db v s ip, r.uuid = u := by
  unfold Repository.updateStatusAndIP
  refine exists_uuid_map db u _ ?_ h
  intro a
  by_cases hv : (a.uuid == v) = true <;> simp [hv]

/-- `Update` keeps every uuid present. -/
lemma exists_uuid_update (db : DB) (u : String) (inst : V2RayInstance)
    (h : ∃ r ∈ db, r.uuid = u) :
    ∃ r ∈ Repository.update db inst, r.uuid = u := by
  unfold Repository.update
  refine exists_uuid_map db u _ ?_ h
  intro a
  by_cases hv : (a.uuid == inst.uuid) = true <;> simp [hv]

/-- Equation for the async creation workflow when the EC2 creation call
fails. -/
lemma createAsync_eq_createErr (env : CreateEnv) (db : DB) (u e : String)
    (hc : env.createResult = Except.error e) :
    V2RayService.createInstanceAsync env db u =
      (Repository.updateStatus
         (Repository.updateStatus db u StatusCreating) u StatusError,
       [CreateStep.updateStatusCreating, CreateStep.ec2CreateInstance,
        CreateStep.updateStatusError]) := by
  unfold V2RayService.createInstanceAsync
  simp only [hc]

/-- Equation for the async creation workflow when the record has
vanished after the EC2 creation call. -/
lemma createAsync_eq_noRecord (env : CreateEnv) (db : DB) (u cid : String)
    (hc : env.createResult = Except.ok cid)
    (hg : Repository.getByUUID
      (Repository.updateStatus db u StatusCreating) u = none) :
    V2RayService.createInstanceAsync env db u =
      (Repository.updateStatus
         (Repository.updateStatus db u StatusCreating) u StatusError,
       [CreateStep.updateStatusCreating, CreateStep.ec2CreateInstance,
        CreateStep.getByUUID, CreateStep.updateStatusError]) := by
  unfold V2RayService.createInstanceAsync
  simp only [hc, hg]

/-- Equation for the async creation workflow when waiting for the
instance to run fails (terminal cloud state or timeout). -/
lemma createAsync_eq_waitErr (env : CreateEnv) (db : DB) (u cid e : String)
    (inst : V2RayInstance)
    (hc : env.createResult = Except.ok cid)
    (hg : Repository.getByUUID
      (Repository.updateStatus db u StatusCreating) u = some inst)
    (hw : waitForInstanceRunning env.obs 0 env.fuel = Except.error e) :
    V2RayService.createInstanceAsync env db u =
      (Repository.updateStatus
         (Repository.update
           (Repository.updateStatus db u StatusCreating)
           { inst with ec2Id := cid })
         u StatusError,
       [CreateStep.updateStatusCreating, CreateStep.ec2CreateInstance,
        CreateStep.getByUUID, CreateStep.updateEC2Id,
        CreateStep.waitRunning, CreateStep.updateStatusError]) := by
  unfold V2RayService.createInstanceAsync
  simp only [hc, hg, hw]

/-- Equation for the async creation workflow when fetching the public IP
fails. -/
lemma createAsync_eq_ipErr (env : CreateEnv) (db : DB) (u cid e : String)
    (inst : V2RayInstance)
    (hc : env.createResult = Except.ok cid)
    (hg : Repository.getByUUID
      (Repository.updateStatus db u StatusCreating) u = some inst)
    (hw : waitForInstanceRunning env.obs 0 env.fuel = Except.ok ())
    (hip : env.ipResult = Except.error e) :
    V2RayService.createInstanceAsync env db u =
      (Repository.updateStatus
         (Repository.update
           (Repository.updateStatus db u StatusCreating)
           { inst with ec2Id := cid })
         u StatusError,
       [CreateStep.updateStatusCreating, CreateStep.ec2CreateInstance,
        CreateStep.getByUUID, CreateStep.updateEC2Id,
        CreateStep.waitRunning, CreateStep.getPublicIP,
        CreateStep.updateStatusError]) := by
  unfold V2RayService.createInstanceAsync
  simp only [hc, hg, hw, hip]

/-- Equation for the async creation workflow on the full success path. -/
lemma createAsync_eq_success (env : CreateEnv) (db : DB) (u cid ip : String)
    (inst : V2RayInstance)
    (hc : env.createResult = Except.ok cid)
    (hg : Repository.getByUUID
      (Repository.updateStatus db u StatusCreating) u = some inst)
    (hw : waitForInstanceRunning env.obs 0 env.fuel = Except.ok ())
    (hip : env.ipResult = Except.ok ip) :
    V2RayService.createInstanceAsync env db u =
      (Repository.updateStatusAndIP
         (Repository.update
           (Repository.updateStatus db u StatusCreating)
           { inst with ec2Id := cid })
         u StatusRunning ip,
       if env.hasLocalManager then
         [CreateStep.updateStatusCreating, CreateStep.ec2CreateInstance,
          CreateStep.getByUUID, CreateStep.updateEC2Id,
          CreateStep.waitRunning, CreateStep.getPublicIP,
          CreateStep.localV2RayAdd, CreateStep.updateStatusRunning]
       else
         [CreateStep.updateStatusCreating, CreateStep.ec2CreateInstance,
          CreateStep.getByUUID, CreateStep.updateEC2Id,
          CreateStep.waitRunning, CreateStep.getPublicIP,
          CreateStep.updateStatusRunning]) := by
  unfold V2RayService.createInstanceAsync
  simp only [hc, hg, hw, hip]

/-- Some step of the async creation workflow failed: the EC2 creation
call, the wait-until-running poll (including its timeout), or the
public-IP fetch. -/
def createStepFailed (env : CreateEnv) : Prop :=
  (∃ e, env.createResult = Except.error e)
  ∨ (∃ e, waitForInstanceRunning env.obs 0 env.fuel = Except.error e)
  ∨ (∃ e, env.ipResult = Except.error e)

/-- Counts for the trace of the create-call-failure path. -/
lemma traceCreateErr_counts :
    List.count CreateStep.ec2CreateInstance
      [CreateStep.updateStatusCreating, CreateStep.ec2CreateInstance,
       CreateStep.updateStatusError] = 1
    ∧ ∀ s, List.count s
      [CreateStep.updateStatusCreating, CreateStep.ec2CreateInstance,
       CreateStep.updateStatusError] ≤ 1 := by
  refine ⟨by decide, ?_⟩
  intro s
  cases s <;> decide

/-- Counts for the trace of the vanished-record path. -/
lemma traceNoRecord_counts :
    List.count CreateStep.ec2CreateInstance
      [CreateStep.updateStatusCreating, CreateStep.ec2CreateInstance,
       CreateStep.getByUUID, CreateStep.updateStatusError] = 1
    ∧ ∀ s, List.count s
      [CreateStep.updateStatusCreating, CreateStep.ec2CreateInstance,
       CreateStep.getByUUID, CreateStep.updateStatusError] ≤ 1 := by
  refine ⟨by decide, ?_⟩
  intro s
  cases s <;> decide

/-- Counts for the trace of the wait-failure path. -/
lemma traceWaitErr_counts :
    List.count CreateStep.ec2CreateInstance
      [CreateStep.updateStatusCreating, CreateStep.ec2CreateInstance,
       CreateStep.getByUUID, CreateStep.updateEC2Id,
       CreateStep.waitRunning, CreateStep.updateStatusError] = 1
    ∧ ∀ s, List.count s
      [CreateStep.updateStatusCreating, CreateStep.ec2CreateInstance,
       CreateStep.getByUUID, CreateStep.updateEC2Id,
       CreateStep.waitRunning, CreateStep.updateStatusError] ≤ 1 := by
  refine ⟨by decide, ?_⟩
  intro s
  cases s <;> decide

/-- Counts for the trace of the IP-fetch-failure path. -/
lemma traceIpErr_counts :
    List.count CreateStep.ec2CreateInstance
      [CreateStep.updateStatusCreating, CreateStep.ec2CreateInstance,
       CreateStep.getByUUID, CreateStep.updateEC2Id,
       CreateStep.waitRunning, CreateStep.getPublicIP,
       CreateStep.updateStatusError] = 1
    ∧ ∀ s, List.count s
      [CreateStep.updateStatusCreating, CreateStep.ec2CreateInstance,
       CreateStep.getByUUID, CreateStep.updateEC2Id,
       CreateStep.waitRunning, CreateStep.getPublicIP,
       CreateStep.updateStatusError] ≤ 1 := by
  refine ⟨by decide, ?_⟩
  intro s
  cases s <;> decide

/-- Counts for the trace of the success path with a local manager. -/
lemma traceSuccessManager_counts :
    List.count CreateStep.ec2CreateInstance
      [CreateStep.updateStatusCreating, CreateStep.ec2CreateInstance,
       CreateStep.getByUUID, CreateStep.updateEC2Id,
       CreateStep.waitRunning, CreateStep.getPublicIP,
       CreateStep.localV2RayAdd, CreateStep.updateStatusRunning] = 1
    ∧ ∀ s, List.count s
      [CreateStep.updateStatusCreating, CreateStep.ec2CreateInstance,
       CreateStep.getByUUID, CreateStep.updateEC2Id,
       CreateStep.waitRunning, CreateStep.getPublicIP,
       CreateStep.localV2RayAdd, CreateStep.updateStatusRunning] ≤ 1 := by
  refine ⟨by decide, ?_⟩
  intro s
  cases s <;> decide

/-- Counts for the trace of the success path without a local manager. -/
lemma traceSuccessPlain_counts :
    List.count CreateStep.ec2CreateInstance
      [CreateStep.updateStatusCreating, CreateStep.ec2CreateInstance,
       CreateStep.getByUUID, CreateStep.updateEC2Id,
       CreateStep.waitRunning, CreateStep.getPublicIP,
       CreateStep.updateStatusRunning] = 1
    ∧ ∀ s, List.count s
      [CreateStep.updateStatusCreating, CreateStep.ec2CreateInstance,
       CreateStep.getByUUID, CreateStep.updateEC2Id,
       CreateStep.waitRunning, CreateStep.getPublicIP,
       CreateStep.updateStatusRunning] ≤ 1 := by
  refine ⟨by decide, ?_⟩
  intro s
  cases s <;> decide

/-- C5.  In every run of the async creation workflow: the EC2 creation
call is attempted exactly once; no step is executed twice; the record's
uuid survives; every record with the workflow's uuid ends in `running`
or `error`; whenever the creation call, the wait-until-running poll, or
the IP fetch fails, every record with the workflow's uuid ends in
`error`; in particular, if the instance is never observed running
(timeout included), the record ends in `error`. -/
theorem createAsync_single_attempt_error_terminal (env : CreateEnv)
    (db : DB) (u : String) (hex : ∃ r ∈ db, r.uuid = u) :
    ((V2RayService.createInstanceAsync env db u).2.count
        CreateStep.ec2CreateInstance = 1)
    ∧ (∀ s, (V2RayService.createInstanceAsync env db u).2.count s ≤ 1)
    ∧ (∃ r ∈ (V2RayService.createInstanceAsync env db u).1, r.uuid = u)
    ∧ (∀ r ∈ (V2RayService.createInstanceAsync env db u).1, r.uuid = u →
         r.status = StatusRunning ∨ r.status = StatusError)
    ∧ (createStepFailed env →
        ∀ r ∈ (V2RayService.createInstanceAsync env db u).1, r.uuid = u →
          r.status = StatusError)
    ∧ ((∀ k, ¬ env.obs k = some InstState.running) →
        ∀ r ∈ (V2RayService.createInstanceAsync env db u).1, r.uuid = u →
          r.status = StatusError) := by
  cases hc : env.createResult with
  | error e =>
    rw [createAsync_eq_createErr env db u e hc]
    refine ⟨traceCreateErr_counts.1, traceCreateErr_counts.2, ?_, ?_, ?_, ?_⟩
    · exact exists_uuid_updateStatus _ _ _ _
        (exists_uuid_updateStatus _ _ _ _ hex)
    · intro r hr hu
      exact Or.inr (updateStatus_marks _ _ _ r hr hu)
    · intro _ r hr hu
      exact updateStatus_marks _ _ _ r hr hu
    · intro _ r hr hu
      exact updateStatus_marks _ _ _ r hr hu
  | ok cid =>
    cases hg : Repository.getByUUID
        (Repository.updateStatus db u StatusCreating) u with
    | none =>
      rw [createAsync_eq_noRecord env db u cid hc hg]
      refine ⟨traceNoRecord_counts.1, traceNoRecord_counts.2, ?_, ?_, ?_, ?_⟩
      · exact exists_uuid_updateStatus _ _ _ _
          (exists_uuid_updateStatus _ _ _ _ hex)
      · intro r hr hu
        exact Or.inr (updateStatus_marks _ _ _ r hr hu)
      · intro _ r hr hu
        exact updateStatus_marks _ _ _ r hr hu
      · intro _ r hr hu
        exact updateStatus_marks _ _ _ r hr hu
    | some inst =>
      cases hw : waitForInstanceRunning env.obs 0 env.fuel with
      | error e =>
        rw [createAsync_eq_waitErr env db u cid e inst hc hg hw]
        refine ⟨traceWaitErr_counts.1, traceWaitErr_counts.2, ?_, ?_, ?_, ?_⟩
        · exact exists_uuid_updateStatus _ _ _ _
            (exists_uuid_update _ _ _
              (exists_uuid_updateStatus _ _ _ _ hex))
        · intro r hr hu
          exact Or.inr (updateStatus_marks _ _ _ r hr hu)
        · intro _ r hr hu
          exact updateStatus_marks _ _ _ r hr hu
        · intro _ r hr hu
          exact updateStatus_marks _ _ _ r hr hu
      | ok uval =>
        cases uval
        cases hip : env.ipResult with
        | error e =>
          rw [createAsync_eq_ipErr env db u cid e inst hc hg hw hip]
          refine ⟨traceIpErr_counts.1, traceIpErr_counts.2, ?_, ?_, ?_, ?_⟩
          · exact exists_uuid_updateStatus _ _ _ _
              (exists_uuid_update _ _ _
                (exists_uuid_updateStatus _ _ _ _ hex))
          · intro r hr hu
            exact Or.inr (updateStatus_marks _ _ _ r hr hu)
          · intro _ r hr hu
            exact updateStatus_marks _ _ _ r hr hu
          · intro _ r hr hu
            exact updateStatus_marks _ _ _ r hr hu
        | ok ip =>
          rw [createAsync_eq_success env db u cid ip inst hc hg hw hip]
          refine ⟨?_, ?_, ?_, ?_, ?_, ?_⟩
          · cases hm : env.hasLocalManager
            · exact traceSuccessPlain_counts.1
            · exact traceSuccessManager_counts.1
          · cases hm : env.hasLocalManager
            · exact traceSuccessPlain_counts.2
            · exact traceSuccessManager_counts.2
          · exact exists_uuid_updateStatusAndIP _ _ _ _ _
              (exists_uuid_update _ _ _
                (exists_uuid_updateStatus _ _ _ _ hex))
          · intro r hr hu
            exact Or.inl (updateStatusAndIP_marks _ _ _ _ r hr hu)
          · intro hfail
            rcases hfail with ⟨e2, h2⟩ | ⟨e2, h2⟩ | ⟨e2, h2⟩
            · rw [hc] at h2
              cases h2
            · rw [hw] at h2
              cases h2
            · rw [hip] at h2
              cases h2
          · intro hnr
            obtain ⟨j, hj⟩ := waitRunning_ok_observed env.obs 0 env.fuel hw
            exact absurd hj (hnr j)

/-- Witness for C5: the EC2 instance is created (call succeeds once) but
is only ever observed `pending`, so the wait times out after its poll
budget and the record ends in `error`. -/
theorem createAsync_timeout_witness :
    (V2RayService.createInstanceAsync
        { createResult := Except.ok "i-1", obs := fun _ => some InstState.pending,
          fuel := 3, ipResult := Except.ok "1.2.3.4", hasLocalManager := false }
        [{ id := 1, uuid := "u1", ec2Id := "", ec2Region := "r1",
           ec2PublicIP := "", status := "pending", isDeleted := false }]
        "u1").1
      = [{ id := 1, uuid := "u1", ec2Id := "i-1", ec2Region := "r1",
           ec2PublicIP := "", status := "error", isDeleted := false }]
    ∧ (V2RayService.createInstanceAsync
        { createResult := Except.ok "i-1", obs := fun _ => some InstState.pending,
          fuel := 3, ipResult := Except.ok "1.2.3.4", hasLocalManager := false }
        [{ id := 1, uuid := "u1", ec2Id := "", ec2Region := "r1",
           ec2PublicIP := "", status := "pending", isDeleted := false }]
        "u1").2.count CreateStep.ec2CreateInstance = 1
    ∧ ({ id := 1, uuid := "u1", ec2Id := "i-1", ec2Region := "r1",
         ec2PublicIP := "", status := "error", isDeleted := false }
        : V2RayInstance).status = StatusError := by
  have hthm := createAsync_single_attempt_error_terminal
    { createResult := Except.ok "i-1", obs := fun _ => some InstState.pending,
      fuel := 3, ipResult := Except.ok "1.2.3.4", hasLocalManager := false }
    [{ id := 1, uuid := "u1", ec2Id := "", ec2Region := "r1",
       ec2PublicIP := "", status := "pending", isDeleted := false }]
    "u1"
    ⟨{ id := 1, uuid := "u1", ec2Id := "", ec2Region := "r1",
       ec2PublicIP := "", status := "pending", isDeleted := false },
     List.mem_singleton_self _, rfl⟩
  have hnr : ∀ k : Nat,
      ¬ (fun (_ : Nat) => some InstState.pending) k = some InstState.running := by
    intro k h2
    simp at h2
  have heq : (V2RayService.createInstanceAsync
      { createResult := Except.ok "i-1", obs := fun _ => some InstState.pending,
        fuel := 3, ipResult := Except.ok "1.2.3.4", hasLocalManager := false }
      [{ id := 1, uuid := "u1", ec2Id := "", ec2Region := "r1",
         ec2PublicIP := "", status := "pending", isDeleted := false }]
      "u1").1
      = [{ id := 1, uuid := "u1", ec2Id := "i-1", ec2Region := "r1",
           ec2PublicIP := "", status := "error", isDeleted := false }] := by
    rfl
  refine ⟨heq, hthm.1, ?_⟩
  refine hthm.2.2.2.2.2 hnr _ ?_ rfl
  rw [heq]
  exact List.mem_singleton_self _

/-- `EC2Client.WaitForInstanceTerminated`: poll the described state
until the instance is absent (ok) or reports terminated (ok); a failed
describe call aborts with its error; otherwise keep polling until the
timeout.  `obs k` is poll `k`'s describe outcome (`Except.ok none`
models an absent instance); `fuel` is the poll budget of the timeout. -/
def waitForInstanceTerminated (obs : Nat → Except String (Option InstState)) :
    Nat → Nat → Except String Unit
  | _, 0 => Except.error "timeout waiting for instance to be terminated"
  | k, fuel + 1 =>
    match obs k with
    | Except.error e => Except.error ("failed to describe instances: " ++ e)
    | Except.ok none => Except.ok ()
    | Except.ok (some InstState.terminated) => Except.ok ()
    | Except.ok (some _) => waitForInstanceTerminated obs (k + 1) fuel

/-- Outcomes of the cloud calls made by one run of the async teardown
workflow: the result of `TerminateInstance` and the observation sequence
and poll budget of `WaitForInstanceTerminated`. -/
structure DeleteEnv where
  terminateResult : Except String Unit
  obs : Nat → Except String (Option InstState)
  fuel : Nat

/-- `V2RayService.DeleteInstance` (synchronous part): look the record up
by uuid (a missing or soft-deleted record yields the not-found error and
no change), set its status to `deleting`, and hand the cloud id and
region to the async teardown. -/
def V2RayService.deleteInstance (db : DB) (uuid : String) :
    DB × Except String (String × String) :=
  match Repository.getByUUID db uuid with
  | none => (db, Except.error "instance not found")
  | some inst =>
      (Repository.updateStatus db uuid StatusDeleting,
       Except.ok (inst.ec2Id, inst.ec2Region))

/-- `V2RayService.deleteInstanceAsync`: set `deleting` (again), request
cloud termination (single attempt; failure ends in `error`), wait until
the instance is absent or terminated (failure or timeout ends in
`error`), then soft-delete the record. -/
def V2RayService.deleteInstanceAsync (env : DeleteEnv) (db : DB)
    (uuid : String) : DB :=
  match env.terminateResult with
  | Except.error _ =>
      Repository.updateStatus
        (Repository.updateStatus db uuid StatusDeleting) uuid StatusError
  | Except.ok _ =>
    match waitForInstanceTerminated env.obs 0 env.fuel with
    | Except.error _ =>
        Repository.updateStatus
          (Repository.updateStatus db uuid StatusDeleting) uuid StatusError
    | Except.ok _ =>
        Repository.delete
          (Repository.updateStatus db uuid StatusDeleting) uuid

/-- C8.  `DeleteInstance` on a uuid with no non-deleted record fails
with the not-found error and changes nothing; on an existing record it
synchronously sets `deleting`, and when the teardown's termination call
succeeds and the poll observes the instance absent or terminated, the
record ends `deleted` with the soft-delete flag set and is excluded from
the instance listing. -/
theorem requestDelete_lifecycle (db : DB) (u : String) (env : DeleteEnv) :
    (Repository.getByUUID db u = none →
      V2RayService.deleteInstance db u = (db, Except.error "instance not found"))
    ∧ (∀ inst, Repository.getByUUID db u = some inst →
        (∀ r ∈ (V2RayService.deleteInstance db u).1, r.uuid = u →
          r.status = StatusDeleting)
        ∧ (env.terminateResult = Except.ok () →
           waitForInstanceTerminated env.obs 0 env.fuel = Except.ok () →
           ∀ r ∈ V2RayService.deleteInstanceAsync env
               (V2RayService.deleteInstance db u).1 u,
             r.uuid = u →
               r.status = StatusDeleted ∧ r.isDeleted = true
               ∧ r ∉ Repository.list
                   (V2RayService.deleteInstanceAsync env
                     (V2RayService.deleteInstance db u).1 u))) := by
  constructor
  · intro h
    unfold V2RayService.deleteInstance
    simp only [h]
  · intro inst hfound
    have heq : V2RayService.deleteInstance db u =
        (Repository.updateStatus db u StatusDeleting,
         Except.ok (inst.ec2Id, inst.ec2Region)) := by
      unfold V2RayService.deleteInstance
      simp only [hfound]
    constructor
    · rw [heq]
      exact updateStatus_marks db u StatusDeleting
    · intro hterm hwait
      have heq2 : V2RayService.deleteInstanceAsync env
          (V2RayService.deleteInstance db u).1 u =
            Repository.delete
              (Repository.updateStatus
                (V2RayService.deleteInstance db u).1 u StatusDeleting) u := by
        unfold V2RayService.deleteInstanceAsync
        simp only [hterm, hwait]
      rw [heq2]
      intro r hr hu
      have hdel := delete_marks_uuid _ u r hr hu
      have hstat := delete_marks_status _ u r hr hu
      refine ⟨hstat, hdel, ?_⟩
      intro hlist
      have := (List.mem_filter.mp hlist).2
      rw [hdel] at this
      simp at this

/-- Witness for C8: no record with uuid u2 exists, so its delete fails
not-found on the unchanged table; the running record u1 goes to
`deleting` synchronously, and after the cloud reports the instance
absent the record is `deleted`, flagged, and absent from the listing. -/
theorem requestDelete_lifecycle_witness :
    V2RayService.deleteInstance
        [{ id := 1, uuid := "u1", ec2Id := "i-1", ec2Region := "r1",
           ec2PublicIP := "1.2.3.4", status := "running", isDeleted := false }]
        "u2"
      = ([{ id := 1, uuid := "u1", ec2Id := "i-1", ec2Region := "r1",
            ec2PublicIP := "1.2.3.4", status := "running", isDeleted := false }],
         Except.error "instance not found")
    ∧ (V2RayService.deleteInstance
        [{ id := 1, uuid := "u1", ec2Id := "i-1", ec2Region := "r1",
           ec2PublicIP := "1.2.3.4", status := "running", isDeleted := false }]
        "u1").1
      = [{ id := 1, uuid := "u1", ec2Id := "i-1", ec2Region := "r1",
           ec2PublicIP := "1.2.3.4", status := "deleting", isDeleted := false }]
    ∧ ({ id := 1, uuid := "u1", ec2Id := "i-1", ec2Region := "r1",
         ec2PublicIP := "1.2.3.4", status := "deleting", isDeleted := false }
          : V2RayInstance).status = StatusDeleting
    ∧ V2RayService.deleteInstanceAsync
        { terminateResult := Except.ok (), obs := fun _ => Except.ok none,
          fuel := 2 }
        (V2RayService.deleteInstance
          [{ id := 1, uuid := "u1", ec2Id := "i-1", ec2Region := "r1",
             ec2PublicIP := "1.2.3.4", status := "running", isDeleted := false }]
          "u1").1 "u1"
      = [{ id := 1, uuid := "u1", ec2Id := "i-1", ec2Region := "r1",
           ec2PublicIP := "1.2.3.4", status := "deleted", isDeleted := true }]
    ∧ ({ id := 1, uuid := "u1", ec2Id := "i-1", ec2Region := "r1",
         ec2PublicIP := "1.2.3.4", status := "deleted", isDeleted := true }
          : V2RayInstance)
        ∉ Repository.list
            (V2RayService.deleteInstanceAsync
              { terminateResult := Except.ok (), obs := fun _ => Except.ok none,
                fuel := 2 }
              (V2RayService.deleteInstance
                [{ id := 1, uuid := "u1", ec2Id := "i-1", ec2Region := "r1",
                   ec2PublicIP := "1.2.3.4", status := "running",
                   isDeleted := false }]
                "u1").1 "u1") := by
  have hthm2 := requestDelete_lifecycle
    [{ id := 1, uuid := "u1", ec2Id := "i-1", ec2Region := "r1",
       ec2PublicIP := "1.2.3.4", status := "running", isDeleted := false }]
    "u2"
    { terminateResult := Except.ok (), obs := fun _ => Except.ok none,
      fuel := 2 }
  have hthm1 := requestDelete_lifecycle
    [{ id := 1, uuid := "u1", ec2Id := "i-1", ec2Region := "r1",
       ec2PublicIP := "1.2.3.4", status := "running", isDeleted := false }]
    "u1"
    { terminateResult := Except.ok (), obs := fun _ => Except.ok none,
      fuel := 2 }
  have hparts := hthm1.2
    { id := 1, uuid := "u1", ec2Id := "i-1", ec2Region := "r1",
      ec2PublicIP := "1.2.3.4", status := "running", isDeleted := false }
    (by rfl)
  have hasync := hparts.2 rfl rfl
  have heqd : V2RayService.deleteInstanceAsync
      { terminateResult := Except.ok (), obs := fun _ => Except.ok none,
        fuel := 2 }
      (V2RayService.deleteInstance
        [{ id := 1, uuid := "u1", ec2Id := "i-1", ec2Region := "r1",
           ec2PublicIP := "1.2.3.4", status := "running", isDeleted := false }]
        "u1").1 "u1"
      = [{ id := 1, uuid := "u1", ec2Id := "i-1", ec2Region := "r1",
           ec2PublicIP := "1.2.3.4", status := "deleted", isDeleted := true }] := by
    rfl
  have hfin := hasync
    { id := 1, uuid := "u1", ec2Id := "i-1", ec2Region := "r1",
      ec2PublicIP := "1.2.3.4", status := "deleted", isDeleted := true }
    (by
      rw [heqd]
      exact List.mem_singleton_self _)
    rfl
  have heqs : (V2RayService.deleteInstance
      [{ id := 1, uuid := "u1", ec2Id := "i-1", ec2Region := "r1",
         ec2PublicIP := "1.2.3.4", status := "running", isDeleted := false }]
      "u1").1
      = [{ id := 1, uuid := "u1", ec2Id := "i-1", ec2Region := "r1",
           ec2PublicIP := "1.2.3.4", status := "deleting", isDeleted := false }] := by
    rfl
  have hdel := hparts.1
    { id := 1, uuid := "u1", ec2Id := "i-1", ec2Region := "r1",
      ec2PublicIP := "1.2.3.4", status := "deleting", isDeleted := false }
    (by rw [heqs]; exact List.mem_singleton_self _) rfl
  exact ⟨hthm2.1 rfl, heqs, hdel, heqd, hfin.2.2⟩

/-- The state of one registered task's stop channel (`stopCh` of
`AWSInstanceSyncTask`). -/
structure SyncTaskState where
  stopChClosed : Bool
deriving Repr, DecidableEq

/-- `AWSInstanceSyncTask.Stop`: `close(t.stopCh)`.  Closing an
already-closed Go channel panics at runtime; the panic is the error
result. -/
def AWSInstanceSyncTask.stop (t : SyncTaskState) :
    Except String SyncTaskState :=
  if t.stopChClosed then Except.error "close of closed channel"
  else Except.ok { stopChClosed := true }

/-- The externally visible actions of `Scheduler.Stop`, in program
order: cancel the shared context, wait on the WaitGroup, then run each
registered task's stop hook. -/
inductive SchedEvent where
  | cancelContext
  | waitGroupWait
  | stopHook (idx : Nat)
deriving Repr, DecidableEq

/-- The scheduler's registered tasks (their stop-channel states). -/
structure SchedulerState where
  tasks : List SyncTaskState
deriving Repr, DecidableEq

/-- The stop-hook loop at the end of `Scheduler.Stop`; a panicking hook
aborts the loop. -/
def runStopHooks : List SyncTaskState → Except String (List SyncTaskState)
  | [] => Except.ok []
  | t :: ts =>
    match AWSInstanceSyncTask.stop t with
    | Except.error e => Except.error e
    | Except.ok t2 =>
      match runStopHooks ts with
      | Except.error e => Except.error e
      | Except.ok ts2 => Except.ok (t2 :: ts2)

/-- `Scheduler.Stop`: cancel the context, wait for all task executions
to return, then invoke every task's stop hook.  Returns the new task
states and the event trace, or the panic raised by a hook. -/
def Scheduler.stop (s : SchedulerState) :
    Except String (SchedulerState × List SchedEvent) :=
  match runStopHooks s.tasks with
  | Except.error e => Except.error e
  | Except.ok ts =>
      Except.ok ({ tasks := ts },
        SchedEvent.cancelContext :: SchedEvent.waitGroupWait ::
          (List.range s.tasks.length).map SchedEvent.stopHook)

/-- C9 counterexample.  The claim says the stop hooks are protected
against double invocation, so a second `Stop` is safe; but the task's
stop hook closes its channel without any guard, so the first `Stop`
succeeds and the second panics. -/
theorem scheduler_double_stop_panics :
    Scheduler.stop { tasks := [{ stopChClosed := false }] }
      = Except.ok ({ tasks := [{ stopChClosed := true }] },
          [SchedEvent.cancelContext, SchedEvent.waitGroupWait,
           SchedEvent.stopHook 0])
    ∧ Scheduler.stop { tasks := [{ stopChClosed := true }] }
      = Except.error "close of closed channel" := by
  exact ⟨rfl, rfl⟩

/-- Fresh stop channels let the whole stop-hook loop succeed, closing
every channel. -/
lemma runStopHooks_fresh (ts : List SyncTaskState)
    (h : ∀ t ∈ ts, t.stopChClosed = false) :
    runStopHooks ts = Except.ok (ts.map fun _ => { stopChClosed := true }) := by
  induction ts with
  | nil => rfl
  | cons a t ih =>
    have ha := h a (List.mem_cons_self a t)
    unfold runStopHooks AWSInstanceSyncTask.stop
    rw [ha]
    simp only [Bool.false_eq_true, if_false]
    rw [ih (fun x hx => h x (List.mem_cons_of_mem a hx))]
    rfl

/-- A stop-hook loop whose first task already has its channel closed
panics immediately. -/
lemma runStopHooks_closed_head (t : SyncTaskState) (ts : List SyncTaskState)
    (h : t.stopChClosed = true) :
    runStopHooks (t :: ts) = Except.error "close of closed channel" := by
  unfold runStopHooks AWSInstanceSyncTask.stop
  rw [h]
  simp

/-- C9 (amended).  `Stop` cancels the context, waits for the tasks, then
runs every stop hook, in that order; but the hooks carry no double-stop
protection: after one successful `Stop`, every channel is closed, and a
second `Stop` (on any nonempty task set) panics closing a closed
channel. -/
theorem scheduler_stop_order_not_idempotent (s : SchedulerState)
    (hfresh : ∀ t ∈ s.tasks, t.stopChClosed = false) :
    ∃ s2, Scheduler.stop s
        = Except.ok (s2,
            SchedEvent.cancelContext :: SchedEvent.waitGroupWait ::
              (List.range s.tasks.length).map SchedEvent.stopHook)
      ∧ (∀ t ∈ s2.tasks, t.stopChClosed = true)
      ∧ (s.tasks ≠ [] → ∃ e, Scheduler.stop s2 = Except.error e) := by
  refine ⟨{ tasks := s.tasks.map fun _ => { stopChClosed := true } }, ?_, ?_, ?_⟩
  · unfold Scheduler.stop
    rw [runStopHooks_fresh s.tasks hfresh]
  · intro t ht
    obtain ⟨a, _, rfl⟩ := List.mem_map.mp ht
    rfl
  · intro hne
    cases hts : s.tasks with
    | nil => exact absurd hts hne
    | cons a rest =>
      refine ⟨"close of closed channel", ?_⟩
      unfold Scheduler.stop
      have hrun : runStopHooks
          (List.map (fun _ => ({ stopChClosed := true } : SyncTaskState))
            (a :: rest))
          = Except.error "close of closed channel" := by
        rw [List.map_cons]
        exact runStopHooks_closed_head _ _ rfl
      simp only [hrun]

/-- Witness for the amended C9 with one freshly registered task. -/
theorem scheduler_stop_order_witness :
    (∀ t ∈ [({ stopChClosed := false } : SyncTaskState)],
      t.stopChClosed = false)
    ∧ ∃ s2, Scheduler.stop { tasks := [{ stopChClosed := false }] }
        = Except.ok (s2,
            SchedEvent.cancelContext :: SchedEvent.waitGroupWait ::
              (List.range
                ({ tasks := [{ stopChClosed := false }] }
                  : SchedulerState).tasks.length).map SchedEvent.stopHook)
      ∧ (∀ t ∈ s2.tasks, t.stopChClosed = true)
      ∧ (({ tasks := [{ stopChClosed := false }] }
            : SchedulerState).tasks ≠ [] →
          ∃ e, Scheduler.stop s2 = Except.error e) := by
  refine ⟨by decide, ?_⟩
  exact scheduler_stop_order_not_idempotent
    { tasks := [{ stopChClosed := false }] } (by decide)

/-- The HTTP response body of `V2RayHandler.CreateInstance`. -/
structure CreateInstanceResponse where
  uuid : String
  status : String
deriving Repr, DecidableEq

/-- `V2RayHandler.CreateInstance`: call the service; on success answer
with the returned uuid and the string literal "pending"; on failure
forward the error. -/
def V2RayHandler.createInstance (db : DB) (region freshUUID : String) :
    DB × Except String CreateInstanceResponse :=
  match V2RayService.createInstance db region freshUUID with
  | (db2, Except.ok u) => (db2, Except.ok { uuid := u, status := "pending" })
  | (db2, Except.error e) => (db2, Except.error e)

/-- C10.  Every successful create response carries status "pending";
and when an active record already exists for the region, the response
carries that record's uuid — still with status "pending", whatever the
record's persisted status is. -/
theorem handler_create_constant_pending (db : DB) (R u : String)
    (ex : V2RayInstance)
    (h : Repository.getRegionActiveInstance db R = some ex) :
    V2RayHandler.createInstance db R u
      = (db, Except.ok { uuid := ex.uuid, status := "pending" })
    ∧ ∀ db0 R0 u0 db2 resp,
        V2RayHandler.createInstance db0 R0 u0 = (db2, Except.ok resp) →
        resp.status = "pending" := by
  constructor
  · unfold V2RayHandler.createInstance
    rw [createInstance_active db R u ex h]
  · intro db0 R0 u0 db2 resp hres
    unfold V2RayHandler.createInstance at hres
    cases hsvc : V2RayService.createInstance db0 R0 u0 with
    | mk db3 r =>
      rw [hsvc] at hres
      cases r with
      | ok v =>
        have : ({ uuid := v, status := "pending" }
            : CreateInstanceResponse) = resp := by
          exact congrArg Prod.snd hres |> fun h2 => by
            simpa using h2
        rw [← this]
      | error e => simp at hres

/-- Witness for C10: the region already holds a running instance; the
response carries its uuid, reports "pending", and "pending" is not the
record's actual status "running". -/
theorem handler_create_constant_pending_witness :
    V2RayHandler.createInstance
        [{ id := 1, uuid := "u-old", ec2Id := "i-1", ec2Region := "r1",
           ec2PublicIP := "1.2.3.4", status := "running", isDeleted := false }]
        "r1" "u-new"
      = ([{ id := 1, uuid := "u-old", ec2Id := "i-1", ec2Region := "r1",
            ec2PublicIP := "1.2.3.4", status := "running", isDeleted := false }],
         Except.ok { uuid := "u-old", status := "pending" })
    ∧ ("pending" : String) ≠ "running" := by
  refine ⟨?_, by decide⟩
  exact (handler_create_constant_pending
    [{ id := 1, uuid := "u-old", ec2Id := "i-1", ec2Region := "r1",
       ec2PublicIP := "1.2.3.4", status := "running", isDeleted := false }]
    "r1" "u-new"
    { id := 1, uuid := "u-old", ec2Id := "i-1", ec2Region := "r1",
      ec2PublicIP := "1.2.3.4", status := "running", isDeleted := false }
    (by rfl)).1

-- Sanity checks on concrete inputs.
example :
    V2RayService.createInstance [] "us-east-1" "u1" =
      ([newPendingRecord [] "us-east-1" "u1"], Except.ok "u1") := by
  rfl

example :
    (V2RayService.createInstance [newPendingRecord [] "us-east-1" "u1"]
      "us-east-1" "u2").2 = Except.ok "u1" := by
  rfl
